import Mathlib

/-!
Verification development for the `ormrepo` repository layer.

The Python sources are shallowly embedded:

* `src/ormrepo/orm.py` — `DatabaseRepository._resolve_pk_condition`,
  `_resolve_global_filters`, `_resolve_related_filters`, `_get` (statement
  assembly and execution), `get_one`, `get_many`, `delete`.
* `src/ormrepo/db_settings.py` — `ConfigORM` and its validating setters.
* `src/ormrepo/utils.py` — `ORMBuilder` (pydantic-to-entity construction) and
  `NestedUpdater` (in-place nested reconciliation), plus the pydantic
  `model_validate(..., from_attributes=True)` collaborator used by
  `DTORepository._model_validate`.

Python scalars are the inductive `PyVal`; SQLAlchemy clause elements are the
inductives `FExpr`/`QPred` with an evaluation semantics over rows; entity
instances mutated by the `NestedUpdater` live in an explicit `Heap` addressed
by object identifiers.  Recursive Python functions are embedded with an
explicit recursion budget (`fuel`); exhaustion is reported through the error
monad and never occurs at adequate fuel, so every theorem below either keeps
the fuel symbolic or supplies a sufficient concrete amount.
-/

/-- A Python scalar value (the fragment used by the repository layer). -/
inductive PyVal where
  | none
  | int (n : Int)
  | str (s : String)
  | bool (b : Bool)
deriving DecidableEq

/-- Python truthiness of a scalar (`bool(v)`). -/
def PyVal.truthy : PyVal → Bool
  | .none => false
  | .int n => n != 0
  | .str s => !s.isEmpty
  | .bool b => b

/-- `isinstance(v, int)` — in Python `bool` is a subclass of `int`. -/
def PyVal.isInt : PyVal → Bool
  | .int _ => true
  | .bool _ => true
  | _ => false

/-- The integer a Python `int`-instance stands for (`True == 1`, `False == 0`). -/
def PyVal.toInt : PyVal → Int
  | .int n => n
  | .bool b => if b then 1 else 0
  | _ => 0

/-- A primary-key argument as accepted by the repository: a bare scalar, a
positional tuple/list, or a field-name-keyed mapping (`types_.PK`). -/
inductive PK where
  | scalar (v : PyVal)
  | tup (vs : List PyVal)
  | map (m : List (String × PyVal))
deriving DecidableEq

/-- Python truthiness of a primary-key argument (`if pk:` in `_get`). -/
def PK.truthy : PK → Bool
  | .scalar v => v.truthy
  | .tup vs => !vs.isEmpty
  | .map m => !m.isEmpty

/-- An atomic SQLAlchemy filter expression: either a column-equality
comparison built by the repository itself, or an opaque caller-supplied
clause element identified by an index into an evaluation environment. -/
inductive FExpr where
  | eqCol (col : String) (v : PyVal)
  | raw (id : Nat)
deriving DecidableEq

/-- A predicate as produced by the repository: a single clause element or an
`and_(*clauses)` conjunction of clause elements. -/
inductive QPred where
  | one (f : FExpr)
  | and_ (fs : List FExpr)
deriving DecidableEq

/-- A database row of the repository's entity table, as a field assignment. -/
abbrev Row := List (String × PyVal)

/-- Reading a column of a row; absent columns read as SQL NULL / `None`. -/
def rowGet (r : Row) (c : String) : PyVal := (r.lookup c).getD .none

/-- Truth value of an atomic filter on a row.  Opaque caller filters are
interpreted by the environment `env`. -/
def evalFilter (env : Nat → Row → Bool) (r : Row) : FExpr → Bool
  | .eqCol c v => rowGet r c == v
  | .raw i => env i r

/-- Truth value of a predicate on a row. -/
def evalPred (env : Nat → Row → Bool) (r : Row) : QPred → Bool
  | .one f => evalFilter env r f
  | .and_ fs => fs.all (evalFilter env r)

/-- The structured `detail` payload attached to `ORMException`s raised by
primary-key resolution and configuration validation. -/
inductive ErrDetail where
  | pkKeys (got : List String) (expected : List String)
  | pkLen (got : Nat) (expected : Nat)
  | pkScalar (got : PyVal) (expected : List String)
  | cfgMsg (field : String) (msg : String)
deriving DecidableEq

/-- `DatabaseRepository._expand_expression`: the `(key, operator, value)`
triple used when serializing a filter into the `EntryNotFound` detail. -/
def expand_expression : FExpr → String × String × PyVal
  | .eqCol c v => (c, "eq", v)
  | .raw i => (toString i, "raw", .none)

/-- The diagnostic `detail` dictionary attached to `EntryNotFound` by
`DatabaseRepository._get` (one field per dictionary key). -/
structure NotFoundDetail where
  pk : PK
  filters : List (String × String × PyVal)
  local_filters : Option (List FExpr)
  global_filters : Option (List (String × PyVal))
  load : List Nat
  local_loader_options : Option (List Nat)
  relation_filters : List (String × List FExpr)
  offset : Option Nat
deriving DecidableEq

deriving instance DecidableEq for Except

/-- The Python exceptions observable from the embedded code. -/
inductive PyErr where
  | ormException (message : String) (detail : ErrDetail)
  | entryNotFound (detail : NotFoundDetail)
  | multipleResultsFound
  | configurateException (detail : ErrDetail)
  | typeError (msg : String)
  | attributeError (attr : String)
  | fuelExhausted
deriving DecidableEq

/-- The schema metadata of one mapped entity type as seen by `orm.py`:
its declared primary-key column keys (in declared order) and the set of
attribute names for which `hasattr(model, key)` holds. -/
structure EntityType where
  name : String
  pk_columns : List String
  attrs : List String
deriving DecidableEq

/-- `hasattr(model, key)`. -/
def hasattr (E : EntityType) (k : String) : Bool := E.attrs.contains k

/-- The process-wide `ConfigORM` state: default page size and global filter
map (`None` when never assigned). -/
structure ConfigORM where
  limit : Int
  global_filters : Option (List (String × PyVal))
deriving DecidableEq

/-- The default configuration `config_orm = ConfigORM()`. -/
def configDefault : ConfigORM := { limit := 1000, global_filters := none }

/-- `ConfigORM.limit` setter: rejects non-`int` values and values `< 0`
(so `0` is accepted, although the docstring and the error message demand
a value `> 0`). -/
def ConfigORM.set_limit (cfg : ConfigORM) (value : PyVal) : Except PyErr ConfigORM :=
  if !value.isInt then
    .error (.configurateException (.cfgMsg "limit" "must be an int"))
  else if value.toInt < 0 then
    .error (.configurateException (.cfgMsg "limit" "must be > 0"))
  else
    .ok { cfg with limit := value.toInt }

/-- A Python dictionary key as supplied to the `global_filters` setter. -/
inductive PyKey where
  | str (s : String)
  | other (tag : String)
deriving DecidableEq

/-- The argument of the `ConfigORM.global_filters` setter: a dictionary with
arbitrary keys, or a non-dictionary value. -/
inductive GFValue where
  | dict (entries : List (PyKey × PyVal))
  | notDict (tag : String)
deriving DecidableEq

/-- Extract the string of a key already validated to be a string. -/
def PyKey.asString : PyKey → String
  | .str s => s
  | .other t => t

/-- `ConfigORM.global_filters` setter: rejects non-dictionaries and
dictionaries with a non-string key. -/
def ConfigORM.set_global_filters (cfg : ConfigORM) (value : GFValue) :
    Except PyErr ConfigORM :=
  match value with
  | .notDict _ =>
      .error (.configurateException (.cfgMsg "global_filters" "must be a dict"))
  | .dict entries =>
      if !entries.all (fun kv => match kv.1 with | .str _ => true | _ => false) then
        .error (.configurateException (.cfgMsg "global_filters" "keys must be strings"))
      else
        .ok { cfg with global_filters := some (entries.map (fun kv => (kv.1.asString, kv.2))) }

/-- Boolean equality of two string lists viewed as sets
(`set(pk.keys()) != {col.key for col in pk_columns}` in the source). -/
def setEqStr (a b : List String) : Bool :=
  a.all b.contains && b.all a.contains

/-- Reading a key of a string-keyed mapping (`pk[col.key]`); the key is
present in every reachable use, so the default is irrelevant there. -/
def lookupPy (m : List (String × PyVal)) (c : String) : PyVal :=
  (m.lookup c).getD .none

/-- `DatabaseRepository._resolve_pk_condition`: validates the shape of a
primary-key argument against the entity's declared primary-key columns and
builds the `and_` of per-column equality conditions. -/
def resolve_pk_condition (E : EntityType) (pk : PK) : Except PyErr QPred :=
  match pk with
  | .map m =>
      if !setEqStr (m.map Prod.fst) E.pk_columns then
        .error (.ormException "Invalid PK keys."
          (.pkKeys (m.map Prod.fst) E.pk_columns))
      else
        .ok (.and_ (E.pk_columns.map (fun c => .eqCol c (lookupPy m c))))
  | .tup vs =>
      if E.pk_columns.length ≠ vs.length then
        .error (.ormException "Composite PK tuple has wrong length."
          (.pkLen vs.length E.pk_columns.length))
      else
        .ok (.and_ ((E.pk_columns.zip vs).map (fun cv => .eqCol cv.1 cv.2)))
  | .scalar v =>
      if E.pk_columns.length ≠ 1 then
        .error (.ormException "Expected composite PK, got scalar value"
          (.pkScalar v E.pk_columns))
      else
        .ok (.and_ [.eqCol (E.pk_columns.headD "") v])

/-- `DatabaseRepository._resolve_global_filters`: the accumulation loop of
equality conditions over the fields the model actually declares. -/
def resolve_global_filters (E : EntityType) (filters : List (String × PyVal)) : QPred :=
  .and_ (filters.foldl
    (fun conds kv => if hasattr E kv.1 then conds ++ [.eqCol kv.1 kv.2] else conds) [])

/-- The predicate the specification describes for global filters: the AND of
equality conditions built from only the declared subset of the filter map. -/
def global_filters_spec (E : EntityType) (filters : List (String × PyVal)) : QPred :=
  .and_ ((filters.filter (fun kv => hasattr E kv.1)).map (fun kv => .eqCol kv.1 kv.2))

/-- The per-instance state of a `DatabaseRepository` relevant to reads: the
bound entity type, the fixed local filters and loader options (the empty list
standing for both `None` and an empty iterable, which Python treats alike in
every truthiness test of `_get`), and the three enable flags. -/
structure Repo where
  model : EntityType
  local_filters : List FExpr
  local_loader_options : List Nat
  use_local_filters : Bool
  use_local_loader_options : Bool
  use_global_filters : Bool
deriving DecidableEq

/-- An entry of a `select` statement's `options(...)` list. -/
inductive QOption where
  | load (id : Nat)
  | loaderCriteria (id : Nat)
  | withLoaderCriteria (cls : String) (p : QPred)
deriving DecidableEq

/-- `DatabaseRepository._resolve_related_filters`: one
`with_loader_criteria(model, and_(*expressions))` option per related model
with a non-empty expression list. -/
def resolve_related_filters (rfs : List (String × List FExpr)) : List QOption :=
  rfs.foldl
    (fun opts mf => if !mf.2.isEmpty then opts ++ [.withLoaderCriteria mf.1 (.and_ mf.2)] else opts)
    []

/-- The `select` statement assembled by `DatabaseRepository._get`:
accumulated `where` conditions (conjoined at execution), joined models,
options, offset and limit as finally applied. -/
structure Stmt where
  whereConds : List QPred
  joins : List String
  options : List QOption
  offsetN : Nat
  limitN : Option Int
deriving DecidableEq

/-- The `for model, filters in join_filters.items():` loop of `_get`.  The
loop variable `filters` shadows and overwrites the `filters` parameter; the
accumulator is `(where-conditions, joined models, current value of the
local variable filters)`. -/
def joinLoop (init : List QPred × List String × List FExpr)
    (jfs : List (String × List FExpr)) : List QPred × List String × List FExpr :=
  jfs.foldl
    (fun acc jf => (acc.1 ++ jf.2.map .one, acc.2.1 ++ [jf.1], jf.2))
    init

/-- Statement assembly of `DatabaseRepository._get` (everything before
`session.execute`), returning the statement together with the final value of
the local variable `filters` (needed verbatim by the `EntryNotFound`
detail).  Mirrors the source order: effective limit, pk condition, join
filters, load options, ad hoc filters, local filters, global filters, local
loader options, relation filters, offset, limit. -/
def buildStmt (cfg : ConfigORM) (repo : Repo) (pk : PK) (filters0 : List FExpr)
    (load : List Nat) (join_filters : List (String × List FExpr))
    (relation_filters : List (String × List FExpr)) (offset : Nat)
    (limit0 : Option Int) : Except PyErr (Stmt × List FExpr) := do
  let lim : Int := match limit0 with
    | some l => if l > 0 then l else cfg.limit
    | none => cfg.limit
  let filters := filters0
  let conds ← (if pk.truthy then do
      let c ← resolve_pk_condition repo.model pk
      pure [c]
    else pure [])
  let (conds, joins, filters) :=
    if !join_filters.isEmpty then joinLoop (conds, [], filters) join_filters
    else (conds, [], filters)
  let opts : List QOption := load.map .load
  let conds := if !filters.isEmpty then conds ++ [.and_ filters] else conds
  let conds :=
    if repo.use_local_filters && !repo.local_filters.isEmpty then
      conds ++ [.and_ repo.local_filters]
    else conds
  let conds :=
    match cfg.global_filters with
    | some gf =>
        if repo.use_global_filters && !gf.isEmpty then
          conds ++ [resolve_global_filters repo.model gf]
        else conds
    | none => conds
  let opts :=
    if repo.use_local_loader_options && !repo.local_loader_options.isEmpty then
      opts ++ repo.local_loader_options.map .loaderCriteria
    else opts
  let opts :=
    if !relation_filters.isEmpty then opts ++ resolve_related_filters relation_filters
    else opts
  .ok ({ whereConds := conds
         joins := joins
         options := opts
         offsetN := offset
         limitN := if lim ≠ 0 then some lim else none }, filters)

/-- A row satisfies every accumulated `where` condition of a statement. -/
def rowMatches (env : Nat → Row → Bool) (s : Stmt) (r : Row) : Bool :=
  s.whereConds.all (evalPred env r)

/-- Result of `_get`: a single entity (`one=True`) or a row list. -/
inductive GetRes where
  | one (r : Row)
  | many (rs : List Row)
deriving DecidableEq

/-- The `EntryNotFound` detail dictionary as built in `_get`; `fvar` is the
final value of the (possibly shadowed) local variable `filters`. -/
def mkNotFoundDetail (cfg : ConfigORM) (repo : Repo) (pk : PK) (fvar : List FExpr)
    (load : List Nat) (relation_filters : List (String × List FExpr))
    (offset : Nat) : NotFoundDetail :=
  { pk := pk
    filters := fvar.map expand_expression
    local_filters := if repo.use_local_filters then some repo.local_filters else none
    global_filters := if repo.use_global_filters then cfg.global_filters else none
    load := load
    local_loader_options :=
      if repo.use_local_loader_options then some repo.local_loader_options else none
    relation_filters := relation_filters
    offset := if offset ≠ 0 then some offset else none }

/-- Execution tail of `_get`: run the statement against the table rows,
deduplicate (`.unique()`), then `one_or_none()` / `all()` and the emptiness
check raising `EntryNotFound`. -/
def execStmt (db : List Row) (env : Nat → Row → Bool) (s : Stmt)
    (detail : NotFoundDetail) (one : Bool) : Except PyErr GetRes :=
  let rows := db.filter (rowMatches env s)
  let rows := rows.drop s.offsetN
  let rows := match s.limitN with
    | some l => rows.take l.toNat
    | none => rows
  let rows := rows.dedup
  if one then
    match rows with
    | [] => .error (.entryNotFound detail)
    | [r] => .ok (.one r)
    | _ => .error .multipleResultsFound
  else
    if !rows.isEmpty then .ok (.many rows) else .error (.entryNotFound detail)

/-- `DatabaseRepository._get` over a table `db` of rows. -/
def repoGet (cfg : ConfigORM) (repo : Repo) (db : List Row) (env : Nat → Row → Bool)
    (pk : PK) (filters0 : List FExpr) (load : List Nat)
    (join_filters : List (String × List FExpr))
    (relation_filters : List (String × List FExpr)) (offset : Nat)
    (limit0 : Option Int) (one : Bool) : Except PyErr GetRes := do
  let (s, fvar) ← buildStmt cfg repo pk filters0 load join_filters relation_filters offset limit0
  execStmt db env s (mkNotFoundDetail cfg repo pk fvar load relation_filters offset) one

/-- `DatabaseRepository.get_one`. -/
def get_one (cfg : ConfigORM) (repo : Repo) (db : List Row) (env : Nat → Row → Bool)
    (pk : PK) (load : List Nat) (join_filters : List (String × List FExpr))
    (relation_filters : List (String × List FExpr)) : Except PyErr GetRes :=
  repoGet cfg repo db env pk [] load join_filters relation_filters 0 none true

/-- `DatabaseRepository.get_many`. -/
def get_many (cfg : ConfigORM) (repo : Repo) (db : List Row) (env : Nat → Row → Bool)
    (filters : List FExpr) (load : List Nat) (join_filters : List (String × List FExpr))
    (relation_filters : List (String × List FExpr)) (offset : Nat)
    (limit : Option Int) : Except PyErr GetRes :=
  repoGet cfg repo db env (.scalar .none) filters load join_filters relation_filters offset limit false

/-- The row-selection part of `DatabaseRepository.delete`: the target is
loaded via `_get(pk, one=True, join_filters=join_filters)`; the subsequent
`session.delete`/`flush` acts on that row. -/
def delete_target (cfg : ConfigORM) (repo : Repo) (db : List Row)
    (env : Nat → Row → Bool) (pk : PK)
    (join_filters : List (String × List FExpr)) : Except PyErr GetRes :=
  repoGet cfg repo db env pk [] [] join_filters [] 0 none true

section ResolverTheorems

/-- Accumulating `foldl` with conditional append is `filter` + `map`. -/
theorem foldl_append_filter {α β : Type} (p : α → Bool) (f : α → β) :
    ∀ (l : List α) (acc : List β),
      l.foldl (fun c kv => if p kv then c ++ [f kv] else c) acc =
        acc ++ (l.filter p).map f := by
  intro l
  induction l with
  | nil => simp
  | cons a t ih =>
      intro acc
      by_cases h : p a = true
      · simp [h, ih]
      · simp at h
        simp [h, ih]

/-- Claim C3: for an entity type with N declared primary-key fields,
resolving a mapping whose key set is exactly the declared field names
succeeds with the AND of per-column equality conditions; a mapping with a
different key set, a tuple whose length differs from N, and a bare scalar
when N > 1 each raise `ORMException` carrying the got/expected detail. -/
theorem C3_pk_shape (E : EntityType) (m : List (String × PyVal))
    (vs : List PyVal) (v : PyVal) :
    (setEqStr (m.map Prod.fst) E.pk_columns = true →
      resolve_pk_condition E (.map m) =
        .ok (.and_ (E.pk_columns.map (fun c => .eqCol c (lookupPy m c))))) ∧
    (setEqStr (m.map Prod.fst) E.pk_columns = false →
      resolve_pk_condition E (.map m) =
        .error (.ormException "Invalid PK keys."
          (.pkKeys (m.map Prod.fst) E.pk_columns))) ∧
    (vs.length ≠ E.pk_columns.length →
      resolve_pk_condition E (.tup vs) =
        .error (.ormException "Composite PK tuple has wrong length."
          (.pkLen vs.length E.pk_columns.length))) ∧
    (1 < E.pk_columns.length →
      resolve_pk_condition E (.scalar v) =
        .error (.ormException "Expected composite PK, got scalar value"
          (.pkScalar v E.pk_columns))) := by
  refine ⟨fun h => ?_, fun h => ?_, fun h => ?_, fun h => ?_⟩
  · simp [resolve_pk_condition, h]
  · simp [resolve_pk_condition, h]
  · simp only [resolve_pk_condition]
    rw [if_pos (by omega)]
  · simp only [resolve_pk_condition]
    rw [if_pos (by omega)]

/-- Witness for C3 on the composite-key type of the specification scenario
(`Order` keyed by `(customer_id, order_no)` shape, here `id`/`serial`). -/
theorem C3_pk_shape_witness :
    resolve_pk_condition ⟨"T", ["id", "serial"], ["id", "serial"]⟩
        (.map [("serial", .int 1), ("id", .int 7)]) =
      .ok (.and_ [.eqCol "id" (.int 7), .eqCol "serial" (.int 1)]) ∧
    resolve_pk_condition ⟨"T", ["id", "serial"], ["id", "serial"]⟩
        (.map [("id", .int 7)]) =
      .error (.ormException "Invalid PK keys."
        (.pkKeys ["id"] ["id", "serial"])) ∧
    resolve_pk_condition ⟨"T", ["id", "serial"], ["id", "serial"]⟩ (.tup [.int 1]) =
      .error (.ormException "Composite PK tuple has wrong length." (.pkLen 1 2)) ∧
    resolve_pk_condition ⟨"T", ["id", "serial"], ["id", "serial"]⟩ (.scalar (.int 5)) =
      .error (.ormException "Expected composite PK, got scalar value"
        (.pkScalar (.int 5) ["id", "serial"])) := by
  have h1 := C3_pk_shape ⟨"T", ["id", "serial"], ["id", "serial"]⟩
    [("serial", .int 1), ("id", .int 7)] [.int 1] (.int 5)
  have h2 := C3_pk_shape ⟨"T", ["id", "serial"], ["id", "serial"]⟩
    [("id", .int 7)] [.int 1] (.int 5)
  exact ⟨h1.1 (by decide), h2.2.1 (by decide), h1.2.2.1 (by decide), h1.2.2.2 (by decide)⟩

/-- `all` over a mapped list, with the composition spelled out. -/
theorem all_map_comp {α β : Type} (f : α → β) (p : β → Bool) (l : List α) :
    (l.map f).all p = l.all (fun a => p (f a)) := by
  induction l with
  | nil => rfl
  | cons a t ih => simp [ih]

/-- Claim C7: fields of the global filter map not declared on the entity
type are dropped without error: the resulting predicate is syntactically the
AND of equality conditions over the declared subset, and semantically it
holds on a row exactly when every declared entry equals the row's value. -/
theorem C7_global_filters (E : EntityType) (G : List (String × PyVal))
    (env : Nat → Row → Bool) (r : Row) :
    resolve_global_filters E G = global_filters_spec E G ∧
    evalPred env r (resolve_global_filters E G) =
      (G.filter (fun kv => hasattr E kv.1)).all (fun kv => rowGet r kv.1 == kv.2) := by
  have hs : resolve_global_filters E G = global_filters_spec E G := by
    unfold resolve_global_filters global_filters_spec
    rw [foldl_append_filter (fun kv => hasattr E kv.1)
      (fun kv => FExpr.eqCol kv.1 kv.2) G []]
    simp
  refine ⟨hs, ?_⟩
  rw [hs]
  show ((G.filter (fun kv => hasattr E kv.1)).map
      (fun kv => FExpr.eqCol kv.1 kv.2)).all (evalFilter env r) = _
  rw [all_map_comp]
  rfl

/-- Claim C8 evaluation: the configuration setters validate every mutation —
except that `limit = 0` is accepted, because the guard tests `value < 0`
while the setter's docstring and error message demand a value `> 0`. -/
theorem C8_config_validation_eval :
    ConfigORM.set_limit configDefault (.int 0) =
      .ok { limit := 0, global_filters := none } ∧
    ConfigORM.set_limit configDefault (.str "ten") =
      .error (.configurateException (.cfgMsg "limit" "must be an int")) ∧
    ConfigORM.set_limit configDefault (.int (-5)) =
      .error (.configurateException (.cfgMsg "limit" "must be > 0")) ∧
    ConfigORM.set_global_filters configDefault (.notDict "a list") =
      .error (.configurateException (.cfgMsg "global_filters" "must be a dict")) ∧
    ConfigORM.set_global_filters configDefault (.dict [(.other "3", .bool true)]) =
      .error (.configurateException (.cfgMsg "global_filters" "keys must be strings")) := by
  decide

end ResolverTheorems

section GetTheorems

/-- A one-column entity type used for concrete query evaluations. -/
def modelM : EntityType := ⟨"M", ["id"], ["id"]⟩

/-- A repository over `modelM` with no local filters or loader options and
all flags at their defaults. -/
def repoPlain : Repo :=
  { model := modelM, local_filters := [], local_loader_options := []
    use_local_filters := true, use_local_loader_options := true
    use_global_filters := true }

/-- Claim C2 evaluation: when join filters are supplied, the loop variable
`filters` of `_get` shadows the `filters` parameter, so the assembled
statement contains the join filter twice and the caller's ad hoc filter
(`raw 0`) not at all; without join filters the ad hoc filter is applied. -/
theorem C2_adhoc_filters_dropped_eval :
    buildStmt configDefault repoPlain (.scalar .none) [.raw 0] []
        [("R", [.raw 1])] [] 0 none =
      .ok ({ whereConds := [.one (.raw 1), .and_ [.raw 1]], joins := ["R"]
             options := [], offsetN := 0, limitN := some 1000 }, [.raw 1]) ∧
    QPred.one (.raw 0) ∉ [QPred.one (.raw 1), QPred.and_ [.raw 1]] ∧
    QPred.and_ [.raw 0] ∉ [QPred.one (.raw 1), QPred.and_ [.raw 1]] ∧
    buildStmt configDefault repoPlain (.scalar .none) [.raw 0] [] [] [] 0 none =
      .ok ({ whereConds := [.and_ [.raw 0]], joins := []
             options := [], offsetN := 0, limitN := some 1000 }, [.raw 0]) := by
  decide

/-- Claim C4: whenever the assembled statement matches zero rows of the
table, `_get` raises `EntryNotFound` carrying the full diagnostic detail
(pk, expanded filters, local/global filter snapshots, load directives,
loader options, relation filters, offset) — for both the single-row and the
many-rows mode; an empty answer is never returned. -/
theorem C4_zero_rows_entry_not_found (cfg : ConfigORM) (repo : Repo)
    (db : List Row) (env : Nat → Row → Bool) (pk : PK) (filters0 : List FExpr)
    (load : List Nat) (jfs rfs : List (String × List FExpr)) (offset : Nat)
    (limit0 : Option Int) (one : Bool) (s : Stmt) (fvar : List FExpr)
    (hb : buildStmt cfg repo pk filters0 load jfs rfs offset limit0 = .ok (s, fvar))
    (hz : db.filter (rowMatches env s) = []) :
    repoGet cfg repo db env pk filters0 load jfs rfs offset limit0 one =
      .error (.entryNotFound (mkNotFoundDetail cfg repo pk fvar load rfs offset)) := by
  unfold repoGet
  rw [hb]
  show execStmt db env s (mkNotFoundDetail cfg repo pk fvar load rfs offset) one = _
  unfold execStmt
  rw [hz]
  cases one <;> cases s.limitN <;> simp

/-- Witness for C4: an empty table with a scalar primary key raises
`EntryNotFound` from both `get_one` and `get_many`. -/
theorem C4_zero_rows_entry_not_found_witness :
    get_one configDefault repoPlain [] (fun _ _ => true) (.scalar (.int 1)) [] [] [] =
      .error (.entryNotFound
        (mkNotFoundDetail configDefault repoPlain (.scalar (.int 1)) [] [] [] 0)) ∧
    get_many configDefault repoPlain [] (fun _ _ => true) [.raw 0] [] [] [] 0 none =
      .error (.entryNotFound
        (mkNotFoundDetail configDefault repoPlain (.scalar .none) [.raw 0] [] [] 0)) := by
  constructor
  · exact C4_zero_rows_entry_not_found configDefault repoPlain []
      (fun _ _ => true) (.scalar (.int 1)) [] [] [] [] 0 none true _ _ (by rfl) (by rfl)
  · exact C4_zero_rows_entry_not_found configDefault repoPlain []
      (fun _ _ => true) (.scalar .none) [.raw 0] [] [] [] 0 none false _ _ (by rfl) (by rfl)

/-- Claim C5, amended: a falsy primary-key argument (`0`, `False`, `None`,
empty tuple/list/mapping) makes `_get` skip the primary-key condition and
its shape validation entirely — the assembled statement is identical to the
one built with no key at all, so the operation runs on the remaining filters
only (returning the unique match in single-row mode, raising `EntryNotFound`
on zero matches and `MultipleResultsFound` on several). -/
theorem C5_falsy_pk_amended (cfg : ConfigORM) (repo : Repo) (pk : PK)
    (filters0 : List FExpr) (load : List Nat)
    (jfs rfs : List (String × List FExpr)) (offset : Nat) (limit0 : Option Int)
    (hf : pk.truthy = false) :
    buildStmt cfg repo pk filters0 load jfs rfs offset limit0 =
      buildStmt cfg repo (.scalar .none) filters0 load jfs rfs offset limit0 := by
  unfold buildStmt
  rw [hf]
  rfl

/-- Witness for C5: the statement built for `pk = 0` (and for an empty
mapping) coincides with the statement built for `pk = None`. -/
theorem C5_falsy_pk_amended_witness :
    buildStmt configDefault repoPlain (.scalar (.int 0)) [.raw 0] [] [] [] 0 none =
      buildStmt configDefault repoPlain (.scalar .none) [.raw 0] [] [] [] 0 none ∧
    buildStmt configDefault repoPlain (.map []) [.raw 0] [] [] [] 0 none =
      buildStmt configDefault repoPlain (.scalar .none) [.raw 0] [] [] [] 0 none := by
  exact ⟨C5_falsy_pk_amended configDefault repoPlain (.scalar (.int 0))
      [.raw 0] [] [] [] 0 none (by decide),
    C5_falsy_pk_amended configDefault repoPlain (.map [])
      [.raw 0] [] [] [] 0 none (by decide)⟩

/-- Counterexample to C5 as stated: with `pk = 0` and two rows satisfying
the remaining (empty) filters, `get_one` does not act on the first such row
— `one_or_none()` raises `MultipleResultsFound`. -/
theorem C5_counterexample :
    get_one configDefault repoPlain [[("id", .int 1)], [("id", .int 2)]]
        (fun _ _ => true) (.scalar (.int 0)) [] [] [] =
      .error .multipleResultsFound ∧
    get_one configDefault repoPlain [[("id", .int 1)], [("id", .int 2)]]
        (fun _ _ => true) (.scalar (.int 0)) [] [] [] ≠
      .ok (.one [("id", .int 1)]) := by
  decide

end GetTheorems

section NestedUpdaterModel

/-- A Python value as it appears in a `NestedUpdater` payload or in an
entity attribute: a scalar, a dictionary, a list, or a reference to an
entity instance living in the heap. -/
inductive DVal where
  | prim (p : PyVal)
  | dict (m : List (String × DVal))
  | list (vs : List DVal)
  | obj (oid : Nat)

/-- Python truthiness of such a value. -/
def DVal.truthy : DVal → Bool
  | .prim p => p.truthy
  | .dict m => !m.isEmpty
  | .list vs => !vs.isEmpty
  | .obj _ => true

/-- `v is None`. -/
def DVal.isNone : DVal → Bool
  | .prim .none => true
  | _ => false

/-- Python `==` on the value shapes that occur as primary-key attribute
values: scalars compare by value, entity instances by identity (SQLAlchemy
models keep the default `object.__eq__`); mixed shapes and deep container
comparisons — which never arise in primary-key positions — compare unequal. -/
def dvalEq : DVal → DVal → Bool
  | .prim p, .prim q => p == q
  | .obj i, .obj j => i == j
  | _, _ => false

/-- A SQLAlchemy relationship descriptor: attribute key, `uselist`
cardinality flag, and the related mapped class. -/
structure RelInfo where
  key : String
  uselist : Bool
  target : String

/-- Mapper metadata of one mapped class: primary-key column names in
declared order, and relationship descriptors. -/
structure ClassInfo where
  pk_cols : List String
  rels : List RelInfo

/-- The mapper registry (`inspect(cls)` for every mapped class). -/
abbrev MSchema := List (String × ClassInfo)

/-- Mapper of a class; unmapped names yield empty metadata. -/
def classInfoD (σ : MSchema) (cls : String) : ClassInfo :=
  (σ.lookup cls).getD ⟨[], []⟩

/-- The relationship descriptor of `cls` under attribute `k`, if any. -/
def classRel (σ : MSchema) (cls : String) (k : String) : Option RelInfo :=
  (classInfoD σ cls).rels.find? (fun r => r.key == k)

/-- An entity instance: its mapped class and its attribute assignment. -/
structure Obj where
  cls : String
  fields : List (String × DVal)

/-- A heap of entity instances addressed by object identity. -/
structure Heap where
  objs : List (Nat × Obj)
  next : Nat

/-- Dereference an object identity. -/
def Heap.get? (h : Heap) (oid : Nat) : Option Obj := h.objs.lookup oid

/-- Overwrite attribute `k` (or add it) in an attribute assignment. -/
def fieldsSet (fs : List (String × DVal)) (k : String) (v : DVal) :
    List (String × DVal) :=
  if fs.any (fun kv => kv.1 == k) then
    fs.map (fun kv => if kv.1 == k then (k, v) else kv)
  else fs ++ [(k, v)]

/-- `setattr(obj, k, v)`. -/
def Obj.setF (o : Obj) (k : String) (v : DVal) : Obj :=
  ⟨o.cls, fieldsSet o.fields k v⟩

/-- `setattr` on the instance at `oid`. -/
def Heap.setField (h : Heap) (oid : Nat) (k : String) (v : DVal) : Heap :=
  ⟨h.objs.map (fun p => if p.1 = oid then (p.1, p.2.setF k v) else p), h.next⟩

/-- `cls(**fields)`: allocate a fresh instance whose constructor assigns
exactly the supplied keyword arguments. -/
def Heap.alloc (h : Heap) (cls : String) (fields : List (String × DVal)) :
    Heap × Nat :=
  (⟨h.objs ++ [(h.next, ⟨cls, fields⟩)], h.next + 1⟩, h.next)

/-- `getattr(instance, k)`: an assigned attribute reads back; an unassigned
relationship attribute reads as `[]` (to-many) or `None` (to-one); an
unassigned column attribute reads as `None`. -/
def objGetAttr (σ : MSchema) (h : Heap) (oid : Nat) (k : String) :
    Except PyErr DVal :=
  match h.get? oid with
  | none => .error (.attributeError k)
  | some o =>
      match o.fields.lookup k with
      | some v => .ok v
      | none =>
          match classRel σ o.cls k with
          | some r => if r.uselist then .ok (.list []) else .ok (.prim .none)
          | none => .ok (.prim .none)

/-- `for item in value` over the payload shapes Python can iterate:
lists yield their items, dictionaries their keys, strings their characters. -/
def asIterList : DVal → Except PyErr (List DVal)
  | .list vs => .ok vs
  | .dict m => .ok (m.map (fun kv => .prim (.str kv.1)))
  | .prim (.str s) => .ok (s.data.map (fun c => .prim (.str c.toString)))
  | _ => .error (.typeError "object is not iterable")

/-- `{col.name: item[col.name] for col in pk_cols if col.name in item}`. -/
def pk_submap (pkcols : List String) (m : List (String × DVal)) :
    List (String × DVal) :=
  pkcols.foldl
    (fun a c => match m.lookup c with | some vv => a ++ [(c, vv)] | none => a) []

/-- `all(getattr(obj, k) == v for k, v in key_vals.items())` — lazily, so an
empty `key_vals` is vacuously true without touching the object. -/
def attrsMatch (σ : MSchema) (h : Heap) (o : DVal) :
    List (String × DVal) → Except PyErr Bool
  | [] => .ok true
  | (k, v) :: rest =>
      match o with
      | .obj oid => do
          let a ← objGetAttr σ h oid k
          if dvalEq a v then attrsMatch σ h o rest else .ok false
      | _ => .error (.attributeError k)

/-- `NestedUpdater._find_existing`: first item of the current collection
whose primary-key attribute values all match. -/
def find_existing (σ : MSchema) (h : Heap) :
    List DVal → List (String × DVal) → Except PyErr (Option DVal)
  | [], _ => .ok none
  | o :: rest, kvs => do
      let b ← attrsMatch σ h o kvs
      if b then .ok (some o) else find_existing σ h rest kvs

/-- The `for item in values:` loop of `NestedUpdater._update_one_to_many`;
`app` is recursion into `NestedUpdater._apply` and `acc` the `new_list`
assembled so far. -/
def manyLoop (σ : MSchema)
    (app : Heap → Nat → List (String × DVal) → Except PyErr Heap)
    (cur : List DVal) (tcls : String) (pkcols : List String) :
    Heap → List DVal → List DVal → Except PyErr (Heap × List DVal)
  | h, acc, [] => .ok (h, acc)
  | h, acc, item :: rest =>
      match item with
      | .dict m => do
          let matched ← find_existing σ h cur (pk_submap pkcols m)
          match matched with
          | some mv =>
              if mv.truthy then
                match mv with
                | .obj mo => do
                    let h2 ← app h mo m
                    manyLoop σ app cur tcls pkcols h2 (acc ++ [mv]) rest
                | _ => .error (.typeError "cannot reconcile into a non-entity item")
              else
                let an := h.alloc tcls m
                manyLoop σ app cur tcls pkcols an.1 (acc ++ [.obj an.2]) rest
          | none =>
              let an := h.alloc tcls m
              manyLoop σ app cur tcls pkcols an.1 (acc ++ [.obj an.2]) rest
      | _ => manyLoop σ app cur tcls pkcols h (acc ++ [item]) rest

/-- `NestedUpdater._update_one_to_one`. -/
def update_one_to_one (σ : MSchema)
    (app : Heap → Nat → List (String × DVal) → Except PyErr Heap)
    (h : Heap) (oid : Nat) (rel : RelInfo) (v : DVal) : Except PyErr Heap :=
  if v.isNone then .ok (h.setField oid rel.key (.prim .none))
  else do
    let cur ← objGetAttr σ h oid rel.key
    match v with
    | .dict m =>
        if cur.isNone then
          let an := h.alloc rel.target m
          .ok (an.1.setField oid rel.key (.obj an.2))
        else
          match cur with
          | .obj c => app h c m
          | _ => .error (.typeError "cannot reconcile into a non-entity value")
    | _ => .ok (h.setField oid rel.key v)

/-- `NestedUpdater._update_one_to_many`: reconcile-or-create per payload
item, then replace the collection wholesale with the assembled list. -/
def update_one_to_many (σ : MSchema)
    (app : Heap → Nat → List (String × DVal) → Except PyErr Heap)
    (h : Heap) (oid : Nat) (rel : RelInfo) (values : List DVal) :
    Except PyErr Heap := do
  let cur0 ← objGetAttr σ h oid rel.key
  let cur ← asIterList (if cur0.truthy then cur0 else .list [])
  let pkcols := (classInfoD σ rel.target).pk_cols
  let res ← manyLoop σ app cur rel.target pkcols h [] values
  .ok (res.1.setField oid rel.key (.list res.2))

/-- The per-key dispatch of `NestedUpdater._apply`: relationship keys go to
the to-many or to-one update (the former after `value or []` and
iteration), everything else to the scalar `setattr`. -/
def applyOne (σ : MSchema)
    (app : Heap → Nat → List (String × DVal) → Except PyErr Heap)
    (h : Heap) (oid : Nat) (k : String) (v : DVal) : Except PyErr Heap :=
  match h.get? oid with
  | none => .error (.attributeError k)
  | some o =>
      match classRel σ o.cls k with
      | some rel =>
          if rel.uselist then do
            let values ← asIterList (if v.truthy then v else .list [])
            update_one_to_many σ app h oid rel values
          else update_one_to_one σ app h oid rel v
      | none => .ok (h.setField oid k v)

/-- The `for key, value in data.items():` loop of `NestedUpdater._apply`. -/
def applyData (σ : MSchema)
    (app : Heap → Nat → List (String × DVal) → Except PyErr Heap) :
    Heap → Nat → List (String × DVal) → Except PyErr Heap
  | h, _, [] => .ok h
  | h, oid, (k, v) :: rest => do
      let h2 ← applyOne σ app h oid k v
      applyData σ app h2 oid rest

/-- `NestedUpdater._apply`, tied through an explicit recursion budget that
bounds the payload nesting depth. -/
def nested_apply (σ : MSchema) :
    Nat → Heap → Nat → List (String × DVal) → Except PyErr Heap
  | 0, _, _, _ => .error .fuelExhausted
  | n + 1, h, oid, data => applyData σ (nested_apply σ n) h oid data

/-- `NestedUpdater.update`: applies the payload and returns the same
(now mutated) entry. -/
def nested_update (σ : MSchema) (n : Nat) (h : Heap) (oid : Nat)
    (data : List (String × DVal)) : Except PyErr (Heap × Nat) :=
  (nested_apply σ n h oid data).map (fun h2 => (h2, oid))

end NestedUpdaterModel

section UpdaterTheorems

/-- Reduction of the error-monad bind on a success value. -/
theorem bind_ok_eq {ε α β : Type} (v : α) (f : α → Except ε β) :
    (do let x ← (Except.ok v : Except ε α); f x) = f v := rfl

/-- `getattr` never fails on a live instance. -/
theorem objGetAttr_ok (σ : MSchema) (h : Heap) (oid : Nat) (o : Obj) (k : String)
    (ho : h.get? oid = some o) : ∃ v, objGetAttr σ h oid k = .ok v := by
  cases hl : o.fields.lookup k with
  | some v => exact ⟨v, by simp [objGetAttr, ho, hl]⟩
  | none =>
      cases hr : classRel σ o.cls k with
      | none => exact ⟨.prim .none, by simp [objGetAttr, ho, hl, hr]⟩
      | some r =>
          cases hu : r.uselist with
          | true => exact ⟨.list [], by simp [objGetAttr, ho, hl, hr, hu]⟩
          | false => exact ⟨.prim .none, by simp [objGetAttr, ho, hl, hr, hu]⟩

/-- Claim C6: for a to-one relationship key in the payload, a `None` value
detaches the relationship; a nested mapping constructs a fresh related
instance from the mapping's fields when no related object is present and
otherwise recurses reconciliation into the existing related object (leaving
the relationship slot itself untouched); an entity-instance value replaces
the relationship directly with no recursion (the result does not depend on
the recursion callback `app`). -/
theorem C6_one_to_one_update (σ : MSchema)
    (app : Heap → Nat → List (String × DVal) → Except PyErr Heap)
    (h : Heap) (oid : Nat) (o : Obj) (k : String) (rel : RelInfo)
    (m : List (String × DVal)) (e : Nat)
    (ho : h.get? oid = some o)
    (hrel : classRel σ o.cls k = some rel)
    (hul : rel.uselist = false) :
    (applyOne σ app h oid k (.prim .none) =
      .ok (h.setField oid rel.key (.prim .none))) ∧
    (objGetAttr σ h oid rel.key = .ok (.prim .none) →
      applyOne σ app h oid k (.dict m) =
        .ok ((h.alloc rel.target m).1.setField oid rel.key
          (.obj (h.alloc rel.target m).2))) ∧
    (∀ c, objGetAttr σ h oid rel.key = .ok (.obj c) →
      applyOne σ app h oid k (.dict m) = app h c m) ∧
    (applyOne σ app h oid k (.obj e) = .ok (h.setField oid rel.key (.obj e))) := by
  refine ⟨?_, fun hc => ?_, fun c hc => ?_, ?_⟩
  · simp [applyOne, ho, hrel, hul, update_one_to_one, DVal.isNone]
  · simp [applyOne, ho, hrel, hul, update_one_to_one, DVal.isNone, hc, bind_ok_eq]
  · simp [applyOne, ho, hrel, hul, update_one_to_one, DVal.isNone, hc, bind_ok_eq]
  · obtain ⟨cv, hcv⟩ := objGetAttr_ok σ h oid o rel.key ho
    simp [applyOne, ho, hrel, hul, update_one_to_one, DVal.isNone, hcv, bind_ok_eq]

/-- A parent/child mapper registry with a to-one relationship. -/
def pSchema : MSchema :=
  [("Parent", ⟨["id"], [⟨"child", false, "Child"⟩]⟩), ("Child", ⟨["id"], []⟩)]

/-- A parent with no related child assigned. -/
def pHeapNone : Heap := ⟨[(0, ⟨"Parent", [("id", .prim (.int 1))]⟩)], 10⟩

/-- A parent related to the child at identity 5. -/
def pHeapSome : Heap :=
  ⟨[(0, ⟨"Parent", [("id", .prim (.int 1)), ("child", .obj 5)]⟩),
    (5, ⟨"Child", [("id", .prim (.int 9))]⟩)], 10⟩

/-- Witness for C6 on the parent/child fixture: detach, construct-fresh,
recurse-into-existing and direct-replace, each at a concrete input. -/
theorem C6_one_to_one_update_witness :
    (applyOne pSchema (nested_apply pSchema 3) pHeapSome 0 "child" (.prim .none) =
      .ok (pHeapSome.setField 0 "child" (.prim .none))) ∧
    (applyOne pSchema (nested_apply pSchema 3) pHeapNone 0 "child"
        (.dict [("id", .prim (.int 9))]) =
      .ok ((pHeapNone.alloc "Child" [("id", .prim (.int 9))]).1.setField 0 "child"
        (.obj 10))) ∧
    (applyOne pSchema (nested_apply pSchema 3) pHeapSome 0 "child"
        (.dict [("id", .prim (.int 9))]) =
      nested_apply pSchema 3 pHeapSome 5 [("id", .prim (.int 9))]) ∧
    (applyOne pSchema (nested_apply pSchema 3) pHeapSome 0 "child" (.obj 7) =
      .ok (pHeapSome.setField 0 "child" (.obj 7))) := by
  have t1 := C6_one_to_one_update pSchema (nested_apply pSchema 3) pHeapSome 0
    ⟨"Parent", [("id", .prim (.int 1)), ("child", .obj 5)]⟩ "child"
    ⟨"child", false, "Child"⟩ [("id", .prim (.int 9))] 7 (by rfl) (by rfl) (by rfl)
  have t2 := C6_one_to_one_update pSchema (nested_apply pSchema 3) pHeapNone 0
    ⟨"Parent", [("id", .prim (.int 1))]⟩ "child"
    ⟨"child", false, "Child"⟩ [("id", .prim (.int 9))] 7 (by rfl) (by rfl) (by rfl)
  exact ⟨t1.1, t2.2.1 (by rfl), t1.2.2.1 5 (by rfl), t1.2.2.2⟩

/-- The `Order`/`Item` mapper registry of the specification scenario:
`Order` has composite primary key `(customer_id, order_no)` and a to-many
relationship `items` targeting `Item`, whose primary key is `id`. -/
def orderSchema : MSchema :=
  [("Order", ⟨["customer_id", "order_no"], [⟨"items", true, "Item"⟩]⟩),
   ("Item", ⟨["id"], []⟩)]

/-- The order `(7, 3)` with items `[{id: 1, qty: 1}, {id: 2, qty: 9}]`. -/
def heap0 : Heap :=
  ⟨[(0, ⟨"Order", [("customer_id", .prim (.int 7)), ("order_no", .prim (.int 3)),
                   ("name", .prim (.str "old")), ("items", .list [.obj 1, .obj 2])]⟩),
    (1, ⟨"Item", [("id", .prim (.int 1)), ("qty", .prim (.int 1))]⟩),
    (2, ⟨"Item", [("id", .prim (.int 2)), ("qty", .prim (.int 9))]⟩)], 3⟩

/-- The payload `{name: "X", items: [{id: 1, qty: 5}, {qty: 2}]}`. -/
def payloadC1 : List (String × DVal) :=
  [("name", .prim (.str "X")),
   ("items", .list [.dict [("id", .prim (.int 1)), ("qty", .prim (.int 5))],
                    .dict [("qty", .prim (.int 2))]])]

/-- What the update actually produces: item 1 is first reconciled to
`qty = 5`, then the key-less second payload item vacuously re-matches item 1
(the first of the scanned collection), resets it to `qty = 2` and appends it
a second time; no new item is allocated (`next` stays 3) and item 2 is
dropped from the collection. -/
def heapC1Final : Heap :=
  ⟨[(0, ⟨"Order", [("customer_id", .prim (.int 7)), ("order_no", .prim (.int 3)),
                   ("name", .prim (.str "X")), ("items", .list [.obj 1, .obj 1])]⟩),
    (1, ⟨"Item", [("id", .prim (.int 1)), ("qty", .prim (.int 2))]⟩),
    (2, ⟨"Item", [("id", .prim (.int 2)), ("qty", .prim (.int 9))]⟩)], 3⟩

/-- Running `NestedUpdater.update` on the scenario. -/
def c1_run : Except PyErr Heap := nested_apply orderSchema 5 heap0 0 payloadC1

/-- The outcome claim C1 asserts for the scenario: item 1 reconciled to
`qty = 5`, a brand-new item (a fresh identity) with `qty = 2` appended, and
item 2 dropped. -/
def c1_claimed_outcome : Prop :=
  ∃ h', c1_run = .ok h' ∧
    objGetAttr orderSchema h' 1 "qty" = .ok (.prim (.int 5)) ∧
    (∃ nid, 2 < nid ∧
      objGetAttr orderSchema h' 0 "items" = .ok (.list [.obj 1, .obj nid]) ∧
      objGetAttr orderSchema h' nid "qty" = .ok (.prim (.int 2)))

/-- Counterexample to C1 as stated: on the claim's own scenario the second
payload item `{qty: 2}` has an empty primary-key subset, which vacuously
matches the first existing item, so item 1 ends at `qty = 2` (not 5) and no
new item is created. -/
theorem C1_counterexample : ¬ c1_claimed_outcome := by
  rintro ⟨h', hrun, hqty, -⟩
  have e : c1_run = .ok heapC1Final := rfl
  rw [e] at hrun
  injection hrun with he
  subst he
  have e2 : objGetAttr orderSchema heapC1Final 1 "qty" = .ok (.prim (.int 2)) := rfl
  rw [e2] at hqty
  injection hqty with h1
  injection h1 with h2
  injection h2 with h3
  exact absurd h3 (by decide)

/-- Claim C1, amended: per mapping item the primary-key subset is extracted
and the current collection linearly scanned — a first match is reconciled in
place and kept (same identity), no match allocates a fresh instance from the
mapping's fields — and the collection is replaced wholesale by the assembled
list; but an item carrying none of the primary-key fields matches vacuously,
so on the scenario `{qty: 2}` re-matches item 1, which ends at `qty = 2` and
appears twice, with no new item allocated and item 2 dropped. -/
theorem C1_nested_to_many_amended :
    (∀ (σ : MSchema) (app : Heap → Nat → List (String × DVal) → Except PyErr Heap)
      (cur : List DVal) (tcls : String) (pkcols : List String) (h : Heap)
      (acc : List DVal) (m : List (String × DVal)) (rest : List DVal)
      (mo : Nat) (h2 : Heap),
      find_existing σ h cur (pk_submap pkcols m) = .ok (some (.obj mo)) →
      app h mo m = .ok h2 →
      manyLoop σ app cur tcls pkcols h acc (.dict m :: rest) =
        manyLoop σ app cur tcls pkcols h2 (acc ++ [.obj mo]) rest) ∧
    (∀ (σ : MSchema) (app : Heap → Nat → List (String × DVal) → Except PyErr Heap)
      (cur : List DVal) (tcls : String) (pkcols : List String) (h : Heap)
      (acc : List DVal) (m : List (String × DVal)) (rest : List DVal),
      find_existing σ h cur (pk_submap pkcols m) = .ok none →
      manyLoop σ app cur tcls pkcols h acc (.dict m :: rest) =
        manyLoop σ app cur tcls pkcols (h.alloc tcls m).1
          (acc ++ [.obj (h.alloc tcls m).2]) rest) ∧
    c1_run = .ok heapC1Final := by
  refine ⟨fun σ app cur tcls pkcols h acc m rest mo h2 hf ha => ?_,
    fun σ app cur tcls pkcols h acc m rest hf => ?_, rfl⟩
  · simp [manyLoop, hf, ha, DVal.truthy, bind_ok_eq]
  · simp [manyLoop, hf, bind_ok_eq]

/-- Witness for C1 (amended) on the scenario fixture: the matched first
item is reconciled in place and kept, and an unmatched item (`id = 99`)
allocates the fresh identity 3. -/
theorem C1_nested_to_many_amended_witness :
    manyLoop orderSchema (nested_apply orderSchema 4) [.obj 1, .obj 2] "Item" ["id"]
        heap0 [] [.dict [("id", .prim (.int 1)), ("qty", .prim (.int 5))]] =
      manyLoop orderSchema (nested_apply orderSchema 4) [.obj 1, .obj 2] "Item" ["id"]
        ⟨[(0, ⟨"Order", [("customer_id", .prim (.int 7)), ("order_no", .prim (.int 3)),
                         ("name", .prim (.str "old")),
                         ("items", .list [.obj 1, .obj 2])]⟩),
          (1, ⟨"Item", [("id", .prim (.int 1)), ("qty", .prim (.int 5))]⟩),
          (2, ⟨"Item", [("id", .prim (.int 2)), ("qty", .prim (.int 9))]⟩)], 3⟩
        [.obj 1] [] ∧
    manyLoop orderSchema (nested_apply orderSchema 4) [.obj 1, .obj 2] "Item" ["id"]
        heap0 [] [.dict [("id", .prim (.int 99))]] =
      manyLoop orderSchema (nested_apply orderSchema 4) [.obj 1, .obj 2] "Item" ["id"]
        (heap0.alloc "Item" [("id", .prim (.int 99))]).1 [.obj 3] [] := by
  constructor
  · exact C1_nested_to_many_amended.1 orderSchema (nested_apply orderSchema 4)
      [.obj 1, .obj 2] "Item" ["id"] heap0 []
      [("id", .prim (.int 1)), ("qty", .prim (.int 5))] [] 1 _ (by rfl) (by rfl)
  · exact C1_nested_to_many_amended.2.1 orderSchema (nested_apply orderSchema 4)
      [.obj 1, .obj 2] "Item" ["id"] heap0 [] [("id", .prim (.int 99))] [] (by rfl)

end UpdaterTheorems

section BuilderModel

/-- A value of the DTO world as fed to `ORMBuilder.convert`: a pydantic
model (with its field assignment), a plain dictionary, a list, a scalar, or
some other already-instantiated object (e.g. an entity instance). -/
inductive SVal where
  | pmodel (m : List (String × SVal))
  | dict (m : List (String × SVal))
  | list (vs : List SVal)
  | prim (p : PyVal)
  | instObj (cls : String)

/-- `ORMBuilder._get_related_model_class`: the related class of a
relationship attribute, `None` for non-relationship fields. -/
def relTarget (σ : MSchema) (cls f : String) : Option String :=
  (classRel σ cls f).map (fun r => r.target)

/-- Element-wise `model_dump` serialization of a list, `dv` serializing one
value. -/
def dumpListWith (dv : SVal → Option SVal) : List SVal → Option (List SVal)
  | [] => some []
  | v :: rest => do
      let d ← dv v
      let dr ← dumpListWith dv rest
      some (d :: dr)

/-- Serialization of one field value: lists element-wise, everything else
through `dv`. -/
def dumpEntryWith (dv : SVal → Option SVal) : SVal → Option SVal
  | .list vs => (dumpListWith dv vs).map .list
  | v => dv v

/-- Serialization of a field assignment. -/
def dumpFieldsWith (dv : SVal → Option SVal) :
    List (String × SVal) → Option (List (String × SVal))
  | [] => some []
  | (k, v) :: rest => do
      let d ← dumpEntryWith dv v
      let dr ← dumpFieldsWith dv rest
      some ((k, d) :: dr)

/-- Pydantic `model_dump()`: nested models become plain dictionaries,
recursively; the recursion budget `n` bounds the nesting depth. -/
def dumpVal : Nat → SVal → Option SVal
  | _, .prim p => some (.prim p)
  | _, .instObj c => some (.instObj c)
  | 0, _ => none
  | n + 1, .pmodel m => (dumpFieldsWith (dumpVal n) m).map .dict
  | n + 1, .dict m => (dumpFieldsWith (dumpVal n) m).map .dict
  | n + 1, .list vs => (dumpListWith (dumpVal n) vs).map .list

/-- `ORMBuilder._extract_data`: a pydantic model is dumped, a dictionary is
taken as-is, anything else raises `TypeError` (unsupported source type). -/
def extract_data (n : Nat) : SVal → Except PyErr (List (String × SVal))
  | .pmodel m =>
      match dumpFieldsWith (dumpVal n) m with
      | some dm => .ok dm
      | none => .error .fuelExhausted
  | .dict m => .ok m
  | v =>
      match v with
      | .list _ => .error (.typeError "Unsupported schema type")
      | .prim _ => .error (.typeError "Unsupported schema type")
      | .instObj _ => .error (.typeError "Unsupported schema type")
      | _ => .error (.typeError "Unsupported schema type")

mutual

/-- A freshly constructed (unpersisted) entity: its class and the keyword
arguments its constructor assigned. -/
inductive Ent where
  | mk (cls : String) (fields : List (String × EVal))

/-- A constructed entity attribute: a passed-through source value, one
related instance, or a list of related instances. -/
inductive EVal where
  | sval (s : SVal)
  | one (e : Ent)
  | many (es : List Ent)

end

/-- The keyword arguments of a constructed entity. -/
def entFields : Ent → List (String × EVal)
  | .mk _ fs => fs

/-- Attribute access on a constructed entity. -/
def entLookup (e : Ent) (f : String) : Option EVal := (entFields e).lookup f

/-- Per-item construction of related instances from a list value, `crt`
being recursion into `_create_model_from_schema` at the related class. -/
def crtList (crt : SVal → Except PyErr Ent) : List SVal → Except PyErr (List Ent)
  | [] => .ok []
  | v :: rest => do
      let e ← crt v
      let es ← crtList crt rest
      .ok (e :: es)

/-- The `for field_name, value in data.items():` loop of
`ORMBuilder._create_model_from_schema`, assembling `model_kwargs`: list and
dictionary values of relationship fields recurse, any other value of a
relationship field is silently skipped, non-relationship values pass
through unchanged. -/
def buildKW (σ : MSchema) (crt : String → SVal → Except PyErr Ent) (cls : String) :
    List (String × SVal) → Except PyErr (List (String × EVal))
  | [] => .ok []
  | (f, v) :: rest =>
      match relTarget σ cls f with
      | some rc =>
          match v with
          | .list vs => do
              let es ← crtList (crt rc) vs
              let kw ← buildKW σ crt cls rest
              .ok ((f, .many es) :: kw)
          | .dict dm => do
              let e ← crt rc (.dict dm)
              let kw ← buildKW σ crt cls rest
              .ok ((f, .one e) :: kw)
          | _ => buildKW σ crt cls rest
      | none => do
          let kw ← buildKW σ crt cls rest
          .ok ((f, .sval v) :: kw)

/-- `ORMBuilder._create_model_from_schema` (hence `ORMBuilder.convert`):
extract the data mapping, assemble the keyword arguments, construct. -/
def create_model (σ : MSchema) : Nat → String → SVal → Except PyErr Ent
  | 0, _, _ => .error .fuelExhausted
  | n + 1, cls, s => do
      let data ← extract_data n s
      let kw ← buildKW σ (create_model σ n) cls data
      .ok (.mk cls kw)

mutual

/-- The declared shape of a DTO type: its fields in declaration order. -/
inductive Decl where
  | mk (fields : List (String × FDecl))

/-- One declared DTO field: a scalar, a nested DTO, or a list of nested
DTOs. -/
inductive FDecl where
  | scalar
  | oneOf (d : Decl)
  | manyOf (d : Decl)

end

/-- The field list of a declaration. -/
def declFields : Decl → List (String × FDecl)
  | .mk fs => fs

/-- Element-wise validation of a collection of related instances. -/
def vList (vd : Ent → Option SVal) : List Ent → Option (List SVal)
  | [] => some []
  | e :: rest => do
      let s ← vd e
      let ss ← vList vd rest
      some (s :: ss)

/-- Modelled from the spec: the DTO collaborator's entity-to-DTO conversion
(`schema.model_validate(model, from_attributes=True)` in
`DTORepository._model_validate`, pydantic being an external black box) —
a structural copy reading each declared field from the entity's attributes,
recursing into nested declarations; an unset to-one attribute reads as
`None`, an unset to-many attribute as the empty collection.  `vd` is the
recursion into nested declarations. -/
def vFieldWith (vd : Decl → Ent → Option SVal) (fd : FDecl) (a : Option EVal) :
    Option SVal :=
  match fd with
  | .scalar =>
      match a with
      | some (.sval s) => some s
      | some _ => some (.prim .none)
      | none => some (.prim .none)
  | .oneOf d' =>
      match a with
      | some (.one e') => vd d' e'
      | _ => some (.prim .none)
  | .manyOf d' =>
      match a with
      | some (.many es) => (vList (vd d') es).map .list
      | _ => some (.list [])

/-- Field-wise validation against a declaration. -/
def vFieldsWith (vd : Decl → Ent → Option SVal) (e : Ent) :
    List (String × FDecl) → Option (List (String × SVal))
  | [] => some []
  | (f, fd) :: ds => do
      let s ← vFieldWith vd fd (entLookup e f)
      let ss ← vFieldsWith vd e ds
      some ((f, s) :: ss)

/-- `model_validate(entity, from_attributes=True)` against a declaration. -/
def model_validate : Nat → Decl → Ent → Option SVal
  | 0, _, _ => none
  | n + 1, d, e => (vFieldsWith (model_validate n) e (declFields d)).map .pmodel

/-- Well-formedness of one DTO field value against its declaration: scalar
fields are non-relationship attributes holding scalars; to-one fields are
relationship attributes holding a nested well-formed DTO or `None`; to-many
fields are relationship attributes holding a list of nested well-formed
DTOs.  `w` is the recursion into nested DTOs. -/
def wfFieldWith (w : String → Decl → SVal → Bool) (σ : MSchema) (cls f : String) :
    FDecl → SVal → Bool
  | .scalar, v =>
      (relTarget σ cls f).isNone &&
      (match v with | .prim _ => true | _ => false)
  | .oneOf d', v =>
      match relTarget σ cls f with
      | some rc =>
          match v with
          | .pmodel m' => w rc d' (.pmodel m')
          | .prim .none => true
          | _ => false
      | none => false
  | .manyOf d', v =>
      match relTarget σ cls f with
      | some rc =>
          match v with
          | .list vs =>
              vs.all (fun x => match x with
                | .pmodel mx => w rc d' (.pmodel mx)
                | _ => false)
          | _ => false
      | none => false

/-- Well-formedness of a DTO field assignment against a declaration's field
list: keys coincide in order and are duplicate-free, and every value is
well-formed. -/
def wfFieldsWith (w : String → Decl → SVal → Bool) (σ : MSchema) (cls : String) :
    List (String × FDecl) → List (String × SVal) → Bool
  | [], [] => true
  | (f, fd) :: ds, (k, v) :: ms =>
      f == k && !(ms.map Prod.fst).contains f &&
      wfFieldWith w σ cls f fd v && wfFieldsWith w σ cls ds ms
  | _, _ => false

/-- A well-formed DTO of declared shape `d` for entity class `cls`. -/
def wf_dto (σ : MSchema) : Nat → String → Decl → SVal → Bool
  | 0, _, _, _ => false
  | n + 1, cls, d, .pmodel m => wfFieldsWith (wf_dto σ n) σ cls (declFields d) m
  | _ + 1, _, _, _ => false

end BuilderModel

section BuilderTheorems

/-- A list value test (`isinstance(value, list)`). -/
def SVal.isList : SVal → Bool
  | .list _ => true
  | _ => false

/-- A dictionary value test (`isinstance(value, dict)` — a pydantic model
is not a `dict`). -/
def SVal.isDict : SVal → Bool
  | .dict _ => true
  | _ => false

/-- Skipping step of the keyword assembly: a relationship field with a
value that is neither a list nor a dictionary contributes nothing. -/
theorem buildKW_cons_skip (σ : MSchema) (crt : String → SVal → Except PyErr Ent)
    (cls f rc : String) (v : SVal) (rest : List (String × SVal))
    (hrel : relTarget σ cls f = some rc)
    (h1 : v.isList = false) (h2 : v.isDict = false) :
    buildKW σ crt cls ((f, v) :: rest) = buildKW σ crt cls rest := by
  cases v with
  | list vs => simp [SVal.isList] at h1
  | dict dm => simp [SVal.isDict] at h2
  | pmodel m => simp [buildKW, hrel]
  | prim p => simp [buildKW, hrel]
  | instObj c => simp [buildKW, hrel]

/-- Claim C10: a source field naming a relationship of the target type
whose value is neither a list nor a mapping (e.g. `None`, a scalar, an
already-instantiated entity, or a pydantic model inside a raw dictionary)
is silently skipped by the keyword-argument assembly — processing the entry
equals processing the remaining entries, so the field is neither passed
through nor rejected. -/
theorem C10_relationship_nonmapping_omitted (σ : MSchema)
    (crt : String → SVal → Except PyErr Ent) (cls f rc : String) (v : SVal)
    (rest : List (String × SVal))
    (hrel : relTarget σ cls f = some rc)
    (h1 : v.isList = false) (h2 : v.isDict = false) :
    buildKW σ crt cls ((f, v) :: rest) = buildKW σ crt cls rest :=
  buildKW_cons_skip σ crt cls f rc v rest hrel h1 h2

/-- Witness for C10 on the `Order`/`items` relationship: a `None` value and
an entity-instance value are both skipped. -/
theorem C10_relationship_nonmapping_omitted_witness :
    buildKW orderSchema (create_model orderSchema 3) "Order"
        [("items", .prim .none), ("name", .prim (.str "X"))] =
      buildKW orderSchema (create_model orderSchema 3) "Order"
        [("name", .prim (.str "X"))] ∧
    buildKW orderSchema (create_model orderSchema 3) "Order"
        [("items", .instObj "Item")] =
      buildKW orderSchema (create_model orderSchema 3) "Order" [] := by
  exact ⟨C10_relationship_nonmapping_omitted orderSchema (create_model orderSchema 3)
      "Order" "items" "Item" (.prim .none) [("name", .prim (.str "X"))]
      (by rfl) (by rfl) (by rfl),
    C10_relationship_nonmapping_omitted orderSchema (create_model orderSchema 3)
      "Order" "items" "Item" (.instObj "Item") [] (by rfl) (by rfl) (by rfl)⟩

/-- Success analysis of the error-monad bind. -/
theorem except_bind_ok_iff {ε α β : Type} (x : Except ε α) (f : α → Except ε β)
    (b : β) : (x >>= f) = .ok b ↔ ∃ a, x = .ok a ∧ f a = .ok b := by
  cases x with
  | ok a =>
      constructor
      · intro h; exact ⟨a, rfl, h⟩
      · rintro ⟨a', ha', hf⟩
        injection ha' with e
        subst e
        exact hf
  | error e =>
      constructor
      · intro h; exact absurd h (by intro hh; exact Except.noConfusion hh)
      · rintro ⟨a', ha', -⟩
        exact absurd ha' (by intro hh; exact Except.noConfusion hh)

/-- List step of the keyword assembly on a relationship field. -/
theorem buildKW_cons_list (σ : MSchema) (crt : String → SVal → Except PyErr Ent)
    (cls f rc : String) (vs : List SVal) (rest : List (String × SVal))
    (hrel : relTarget σ cls f = some rc) :
    buildKW σ crt cls ((f, .list vs) :: rest) = (do
      let es ← crtList (crt rc) vs
      let kw ← buildKW σ crt cls rest
      .ok ((f, .many es) :: kw)) := by
  simp [buildKW, hrel]

/-- Dictionary step of the keyword assembly on a relationship field. -/
theorem buildKW_cons_dict (σ : MSchema) (crt : String → SVal → Except PyErr Ent)
    (cls f rc : String) (dm : List (String × SVal)) (rest : List (String × SVal))
    (hrel : relTarget σ cls f = some rc) :
    buildKW σ crt cls ((f, .dict dm) :: rest) = (do
      let e ← crt rc (.dict dm)
      let kw ← buildKW σ crt cls rest
      .ok ((f, .one e) :: kw)) := by
  simp [buildKW, hrel]

/-- Pass-through step of the keyword assembly on a non-relationship field. -/
theorem buildKW_cons_scalar (σ : MSchema) (crt : String → SVal → Except PyErr Ent)
    (cls f : String) (v : SVal) (rest : List (String × SVal))
    (hrel : relTarget σ cls f = none) :
    buildKW σ crt cls ((f, v) :: rest) = (do
      let kw ← buildKW σ crt cls rest
      .ok ((f, .sval v) :: kw)) := by
  cases v <;> simp [buildKW, hrel]

/-- Absent key, absent binding. -/
theorem lookup_eq_none_of_not_mem {β : Type} (l : List (String × β)) (k : String)
    (h : k ∉ l.map Prod.fst) : l.lookup k = none := by
  induction l with
  | nil => rfl
  | cons a t ih =>
      simp only [List.map_cons, List.mem_cons, not_or] at h
      simp [List.lookup, beq_eq_false_iff_ne.mpr h.1, ih h.2]

/-- Well-formedness aligns declaration keys with data keys. -/
theorem wfFields_keys (w : String → Decl → SVal → Bool) (σ : MSchema)
    (cls : String) :
    ∀ (dfs : List (String × FDecl)) (ms : List (String × SVal)),
      wfFieldsWith w σ cls dfs ms = true →
      dfs.map Prod.fst = ms.map Prod.fst := by
  intro dfs
  induction dfs with
  | nil =>
      intro ms h
      cases ms with
      | nil => rfl
      | cons b t => simp [wfFieldsWith] at h
  | cons a ds ih =>
      intro ms h
      cases ms with
      | nil => cases a with | mk f fd => simp [wfFieldsWith] at h
      | cons b msR =>
          cases a with | mk f fd =>
          cases b with | mk k0 v =>
          simp only [wfFieldsWith, Bool.and_eq_true, beq_iff_eq] at h
          obtain ⟨⟨⟨hfk, -⟩, -⟩, hrest⟩ := h
          simp [hfk, ih msR hrest]

/-- Serialization preserves the key sequence. -/
theorem dumpFields_keys (dv : SVal → Option SVal) :
    ∀ (ms dm : List (String × SVal)),
      dumpFieldsWith dv ms = some dm → dm.map Prod.fst = ms.map Prod.fst := by
  intro ms
  induction ms with
  | nil =>
      intro dm h
      simp [dumpFieldsWith] at h
      simp [← h]
  | cons a t ih =>
      intro dm h
      cases a with | mk k v =>
      cases hd : dumpEntryWith dv v with
      | none => simp [dumpFieldsWith, hd] at h
      | some d =>
          cases hdr : dumpFieldsWith dv t with
          | none => simp [dumpFieldsWith, hd, hdr] at h
          | some dr =>
              simp only [dumpFieldsWith, hd, hdr, Option.bind_eq_bind,
                Option.some_bind, Option.some.injEq] at h
              subst h
              simp [ih dr hdr]

/-- The assembled keyword arguments mention only keys of the data. -/
theorem buildKW_keys (σ : MSchema) (crt : String → SVal → Except PyErr Ent)
    (cls : String) :
    ∀ (dm : List (String × SVal)) (kw : List (String × EVal)),
      buildKW σ crt cls dm = .ok kw →
      ∀ g, g ∈ kw.map Prod.fst → g ∈ dm.map Prod.fst := by
  intro dm
  induction dm with
  | nil =>
      intro kw h g hg
      simp [buildKW] at h
      subst h
      simp at hg
  | cons a rest ih =>
      intro kw h g hg
      cases a with | mk f v =>
      cases hrel : relTarget σ cls f with
      | some rc =>
          cases hv1 : v.isList with
          | true =>
              cases v with
              | list vs =>
                  rw [buildKW_cons_list σ crt cls f rc vs rest hrel] at h
                  rw [except_bind_ok_iff] at h
                  obtain ⟨es, -, h⟩ := h
                  rw [except_bind_ok_iff] at h
                  obtain ⟨kwR, hkwR, h⟩ := h
                  injection h with h
                  subst h
                  simp only [List.map_cons, List.mem_cons] at hg ⊢
                  rcases hg with hg | hg
                  · exact Or.inl hg
                  · exact Or.inr (ih kwR hkwR g hg)
              | pmodel m => simp [SVal.isList] at hv1
              | dict dmv => simp [SVal.isList] at hv1
              | prim p => simp [SVal.isList] at hv1
              | instObj c => simp [SVal.isList] at hv1
          | false =>
              cases hv2 : v.isDict with
              | true =>
                  cases v with
                  | dict dmv =>
                      rw [buildKW_cons_dict σ crt cls f rc dmv rest hrel] at h
                      rw [except_bind_ok_iff] at h
                      obtain ⟨e, -, h⟩ := h
                      rw [except_bind_ok_iff] at h
                      obtain ⟨kwR, hkwR, h⟩ := h
                      injection h with h
                      subst h
                      simp only [List.map_cons, List.mem_cons] at hg ⊢
                      rcases hg with hg | hg
                      · exact Or.inl hg
                      · exact Or.inr (ih kwR hkwR g hg)
                  | pmodel m => simp [SVal.isDict] at hv2
                  | list vs => simp [SVal.isDict] at hv2
                  | prim p => simp [SVal.isDict] at hv2
                  | instObj c => simp [SVal.isDict] at hv2
              | false =>
                  rw [buildKW_cons_skip σ crt cls f rc v rest hrel hv1 hv2] at h
                  simp only [List.map_cons, List.mem_cons]
                  exact Or.inr (ih kw h g hg)
      | none =>
          rw [buildKW_cons_scalar σ crt cls f v rest hrel] at h
          rw [except_bind_ok_iff] at h
          obtain ⟨kwR, hkwR, h⟩ := h
          injection h with h
          subst h
          simp only [List.map_cons, List.mem_cons] at hg ⊢
          rcases hg with hg | hg
          · exact Or.inl hg
          · exact Or.inr (ih kwR hkwR g hg)

/-- Reduction of the error-monad bind on an error value. -/
theorem bind_error_eq {ε α β : Type} (e : ε) (f : α → Except ε β) :
    (do let x ← (Except.error e : Except ε α); f x) = .error e := rfl

/-- Scalars serialize to themselves at any recursion budget. -/
theorem dumpVal_prim (n : Nat) (p : PyVal) : dumpVal n (.prim p) = some (.prim p) := by
  cases n <;> rfl

/-- One construction step on a pydantic model whose dump succeeds. -/
theorem create_model_pmodel (σ : MSchema) (k : Nat) (cls : String)
    (m' dm : List (String × SVal)) (hd : dumpFieldsWith (dumpVal k) m' = some dm) :
    create_model σ (k + 1) cls (.pmodel m') =
      (buildKW σ (create_model σ k) cls dm) >>= (fun kw => .ok (.mk cls kw)) := by
  simp [create_model, extract_data, hd, bind_ok_eq]

/-- One construction step on a plain dictionary. -/
theorem create_model_dict (σ : MSchema) (k : Nat) (cls : String)
    (dm : List (String × SVal)) :
    create_model σ (k + 1) cls (.dict dm) =
      (buildKW σ (create_model σ k) cls dm) >>= (fun kw => .ok (.mk cls kw)) := by
  simp [create_model, extract_data, bind_ok_eq]

/-- Inversion of a successful construction from a pydantic model. -/
theorem create_model_pmodel_inv (σ : MSchema) (n : Nat) (cls : String)
    (m' : List (String × SVal)) (e' : Ent)
    (h : create_model σ n cls (.pmodel m') = .ok e') :
    ∃ k dm kw, n = k + 1 ∧ dumpFieldsWith (dumpVal k) m' = some dm ∧
      buildKW σ (create_model σ k) cls dm = .ok kw ∧ e' = .mk cls kw := by
  cases n with
  | zero => simp [create_model] at h
  | succ k =>
      cases hd : dumpFieldsWith (dumpVal k) m' with
      | none => simp [create_model, extract_data, hd, bind_error_eq] at h
      | some dm =>
          rw [create_model_pmodel σ k cls m' dm hd] at h
          rw [except_bind_ok_iff] at h
          obtain ⟨kw, hkw, h⟩ := h
          injection h with h
          exact ⟨k, dm, kw, rfl, hd, hkw, h.symm⟩

/-- Round trip of a collection of nested DTOs, given the round trip of each
nested DTO: the collection dumps, every dumped dictionary constructs, and
validating the constructed instances restores the original collection. -/
theorem elemsRT (σ : MSchema) (n : Nat) (rc : String) (d' : Decl)
    (IH : ∀ (cls' : String) (dd : Decl) (m' : List (String × SVal)),
      wf_dto σ n cls' dd (.pmodel m') = true →
      ∃ e', create_model σ n cls' (.pmodel m') = .ok e' ∧
        model_validate n dd e' = some (.pmodel m')) :
    ∀ vs : List SVal,
      vs.all (fun x => match x with
        | .pmodel mx => wf_dto σ n rc d' (.pmodel mx)
        | _ => false) = true →
      ∃ dvs es, dumpListWith (dumpVal n) vs = some dvs ∧
        crtList (create_model σ n rc) dvs = .ok es ∧
        vList (model_validate n d') es = some vs := by
  intro vs
  induction vs with
  | nil => intro _; exact ⟨[], [], rfl, rfl, rfl⟩
  | cons x rest ih =>
      intro hall
      simp only [List.all_cons, Bool.and_eq_true] at hall
      obtain ⟨hx, hrest⟩ := hall
      obtain ⟨dvsR, esR, hdR, hcR, hvR⟩ := ih hrest
      cases x with
      | pmodel mx =>
          obtain ⟨e', hce, hve⟩ := IH rc d' mx hx
          obtain ⟨k, dm, kw, hn, hdm, hbk, he'⟩ :=
            create_model_pmodel_inv σ n rc mx e' hce
          subst hn
          subst he'
          refine ⟨.dict dm :: dvsR, .mk rc kw :: esR, ?_, ?_, ?_⟩
          · simp [dumpListWith, dumpVal, hdm, hdR]
          · have hcd : create_model σ (k + 1) rc (.dict dm) = .ok (.mk rc kw) := by
              rw [create_model_dict σ k rc dm, hbk]
              rfl
            simp [crtList, hcd, hcR, bind_ok_eq]
          · simp [vList, hve, hvR]
      | dict mm => simp at hx
      | list ll => simp at hx
      | prim p => simp at hx
      | instObj c => simp at hx

/-- Field-wise round trip at one nesting level: a well-formed field
assignment dumps successfully, the dumped assignment assembles into keyword
arguments, and validating any entity whose attributes agree with those
keyword arguments on the declared fields restores the original assignment. -/
theorem fieldsRT (σ : MSchema) (n : Nat) (cls : String)
    (IH : ∀ (cls' : String) (dd : Decl) (m' : List (String × SVal)),
      wf_dto σ n cls' dd (.pmodel m') = true →
      ∃ e', create_model σ n cls' (.pmodel m') = .ok e' ∧
        model_validate n dd e' = some (.pmodel m')) :
    ∀ (dfs : List (String × FDecl)) (ms : List (String × SVal)),
      wfFieldsWith (wf_dto σ n) σ cls dfs ms = true →
      ∃ dm kw,
        dumpFieldsWith (dumpVal n) ms = some dm ∧
        buildKW σ (create_model σ n) cls dm = .ok kw ∧
        ∀ kw' : List (String × EVal),
          (∀ g, g ∈ dfs.map Prod.fst → kw'.lookup g = kw.lookup g) →
          vFieldsWith (model_validate n) (.mk cls kw') dfs = some ms := by
  intro dfs
  induction dfs with
  | nil =>
      intro ms h
      cases ms with
      | nil => exact ⟨[], [], rfl, rfl, fun kw' _ => rfl⟩
      | cons b t => simp [wfFieldsWith] at h
  | cons a ds ih =>
      intro ms h
      cases ms with
      | nil => cases a with | mk f fd => simp [wfFieldsWith] at h
      | cons b msR =>
          cases a with | mk f fd =>
          cases b with | mk k0 v =>
          simp only [wfFieldsWith, Bool.and_eq_true, beq_iff_eq] at h
          obtain ⟨⟨⟨hfk, hnin⟩, hfd⟩, hrest⟩ := h
          subst hfk
          obtain ⟨dmR, kwR, hdR, hbR, hvR⟩ := ih msR hrest
          have hkeys : ds.map Prod.fst = msR.map Prod.fst :=
            wfFields_keys (wf_dto σ n) σ cls ds msR hrest
          have hfnotin : f ∉ msR.map Prod.fst := by
            simp only [Bool.not_eq_true'] at hnin
            intro hmem
            have hc : (List.map Prod.fst msR).contains f = true :=
              List.elem_eq_true_of_mem hmem
            rw [hc] at hnin
            exact Bool.noConfusion hnin
          have tailA : ∀ (kw kw' : List (String × EVal)),
              (∀ g, g ∈ (f :: ds.map Prod.fst) → kw'.lookup g = kw.lookup g) →
              (∀ g, g ∈ ds.map Prod.fst → kw.lookup g = kwR.lookup g) →
              vFieldsWith (model_validate n) (.mk cls kw') ds = some msR := by
            intro kw kw' hag hkwtl
            apply hvR kw'
            intro g hgmem
            rw [hag g (List.mem_cons_of_mem f hgmem), hkwtl g hgmem]
          have hconsne : ∀ (ev : EVal) (kw0 : List (String × EVal)),
              ∀ g, g ∈ ds.map Prod.fst →
              (((f, ev) :: kw0).lookup g = kw0.lookup g) := by
            intro ev kw0 g hgmem
            have hgne : g ≠ f := by
              intro e
              subst e
              rw [hkeys] at hgmem
              exact hfnotin hgmem
            simp [List.lookup, beq_eq_false_iff_ne.mpr hgne]
          cases fd with
          | scalar =>
              simp only [wfFieldWith, Bool.and_eq_true] at hfd
              obtain ⟨hrn, hvp⟩ := hfd
              have hrel : relTarget σ cls f = none := by
                simpa using hrn
              cases v with
              | prim p =>
                  refine ⟨(f, .prim p) :: dmR, (f, .sval (.prim p)) :: kwR, ?_, ?_, ?_⟩
                  · simp [dumpFieldsWith, dumpEntryWith, dumpVal_prim, hdR]
                  · rw [buildKW_cons_scalar σ _ cls f (.prim p) dmR hrel, hbR]
                    rfl
                  · intro kw' hag
                    have hlf : kw'.lookup f = some (.sval (.prim p)) := by
                      rw [hag f (by simp)]
                      simp [List.lookup]
                    have htail := tailA _ kw' hag (hconsne _ kwR)
                    simp [vFieldsWith, vFieldWith, entLookup, entFields, hlf, htail]
              | pmodel mm => simp at hvp
              | dict mm => simp at hvp
              | list ll => simp at hvp
              | instObj c => simp at hvp
          | oneOf d' =>
              cases hrel : relTarget σ cls f with
              | none => simp [wfFieldWith, hrel] at hfd
              | some rc =>
                  cases v with
                  | pmodel m' =>
                      have hwf' : wf_dto σ n rc d' (.pmodel m') = true := by
                        simpa [wfFieldWith, hrel] using hfd
                      obtain ⟨e', hce, hve⟩ := IH rc d' m' hwf'
                      obtain ⟨k, dm', kwE, hn, hdm', hbk, he'⟩ :=
                        create_model_pmodel_inv σ n rc m' e' hce
                      subst hn
                      subst he'
                      refine ⟨(f, .dict dm') :: dmR, (f, .one (.mk rc kwE)) :: kwR,
                        ?_, ?_, ?_⟩
                      · simp [dumpFieldsWith, dumpEntryWith, dumpVal, hdm', hdR]
                      · have hcd : create_model σ (k + 1) rc (.dict dm') =
                            .ok (.mk rc kwE) := by
                          rw [create_model_dict σ k rc dm', hbk]
                          rfl
                        rw [buildKW_cons_dict σ _ cls f rc dm' dmR hrel]
                        simp [hcd, hbR, bind_ok_eq]
                      · intro kw' hag
                        have hlf : kw'.lookup f = some (.one (.mk rc kwE)) := by
                          rw [hag f (by simp)]
                          simp [List.lookup]
                        have htail := tailA _ kw' hag (hconsne _ kwR)
                        simp [vFieldsWith, vFieldWith, entLookup, entFields, hlf,
                          htail, hve]
                  | prim p =>
                      cases p with
                      | none =>
                          refine ⟨(f, .prim .none) :: dmR, kwR, ?_, ?_, ?_⟩
                          · simp [dumpFieldsWith, dumpEntryWith, dumpVal_prim, hdR]
                          · rw [buildKW_cons_skip σ _ cls f rc (.prim .none) dmR hrel
                              rfl rfl]
                            exact hbR
                          · intro kw' hag
                            have hlf : kw'.lookup f = none := by
                              rw [hag f (by simp)]
                              apply lookup_eq_none_of_not_mem
                              intro hmem
                              have h1 := buildKW_keys σ _ cls dmR kwR hbR f hmem
                              rw [dumpFields_keys _ msR dmR hdR] at h1
                              exact hfnotin h1
                            have htail := tailA kwR kw' hag (fun g _ => rfl)
                            simp [vFieldsWith, vFieldWith, entLookup, entFields,
                              hlf, htail]
                      | int nn => simp [wfFieldWith, hrel] at hfd
                      | str ss => simp [wfFieldWith, hrel] at hfd
                      | bool bb => simp [wfFieldWith, hrel] at hfd
                  | dict mm => simp [wfFieldWith, hrel] at hfd
                  | list ll => simp [wfFieldWith, hrel] at hfd
                  | instObj c => simp [wfFieldWith, hrel] at hfd
          | manyOf d' =>
              cases hrel : relTarget σ cls f with
              | none => simp [wfFieldWith, hrel] at hfd
              | some rc =>
                  cases v with
                  | list vs =>
                      have hall : vs.all (fun x => match x with
                          | .pmodel mx => wf_dto σ n rc d' (.pmodel mx)
                          | _ => false) = true := by
                        simpa [wfFieldWith, hrel] using hfd
                      obtain ⟨dvs, es, hdvs, hcrt, hvl⟩ := elemsRT σ n rc d' IH vs hall
                      refine ⟨(f, .list dvs) :: dmR, (f, .many es) :: kwR, ?_, ?_, ?_⟩
                      · simp [dumpFieldsWith, dumpEntryWith, hdvs, hdR]
                      · rw [buildKW_cons_list σ _ cls f rc dvs dmR hrel]
                        simp [hcrt, hbR, bind_ok_eq]
                      · intro kw' hag
                        have hlf : kw'.lookup f = some (.many es) := by
                          rw [hag f (by simp)]
                          simp [List.lookup]
                        have htail := tailA _ kw' hag (hconsne _ kwR)
                        simp [vFieldsWith, vFieldWith, entLookup, entFields, hlf,
                          htail, hvl]
                  | pmodel mm => simp [wfFieldWith, hrel] at hfd
                  | dict mm => simp [wfFieldWith, hrel] at hfd
                  | prim p => simp [wfFieldWith, hrel] at hfd
                  | instObj c => simp [wfFieldWith, hrel] at hfd

/-- Claim C9: building an unpersisted entity graph from a well-formed DTO
via the Entity Builder and converting it back to the same DTO shape yields
the original DTO — every scalar, to-one and to-many field explicitly set on
the source is restored. -/
theorem C9_dto_roundtrip (σ : MSchema) (n : Nat) (cls : String) (d : Decl)
    (m : List (String × SVal))
    (hw : wf_dto σ n cls d (.pmodel m) = true) :
    ∃ e, create_model σ n cls (.pmodel m) = .ok e ∧
      model_validate n d e = some (.pmodel m) := by
  induction n generalizing cls d m with
  | zero => simp [wf_dto] at hw
  | succ k ih =>
      have hw' : wfFieldsWith (wf_dto σ k) σ cls (declFields d) m = true := by
        simpa [wf_dto] using hw
      obtain ⟨dm, kw, hd, hb, hv⟩ := fieldsRT σ k cls ih (declFields d) m hw'
      refine ⟨.mk cls kw, ?_, ?_⟩
      · rw [create_model_pmodel σ k cls m dm hd, hb]
        rfl
      · have hval := hv kw (fun g _ => rfl)
        simp [model_validate, hval]

/-- The DTO shape of the scenario order: a scalar `name` and a to-many
`items` of `{id, qty}` DTOs. -/
def declOrder : Decl :=
  .mk [("name", .scalar),
       ("items", .manyOf (.mk [("id", .scalar), ("qty", .scalar)]))]

/-- A concrete order DTO with one nested item. -/
def dtoOrderFields : List (String × SVal) :=
  [("name", .prim (.str "A")),
   ("items", .list [.pmodel [("id", .prim (.int 1)), ("qty", .prim (.int 4))]])]

/-- Witness for C9: the concrete order DTO round-trips through the Entity
Builder and validation. -/
theorem C9_dto_roundtrip_witness :
    ∃ e, create_model orderSchema 2 "Order" (.pmodel dtoOrderFields) = .ok e ∧
      model_validate 2 declOrder e = some (.pmodel dtoOrderFields) :=
  C9_dto_roundtrip orderSchema 2 "Order" declOrder dtoOrderFields (by rfl)
